import Mathlib

set_option maxRecDepth 40000

/-!
Shallow embedding of the retrieval-and-agent orchestration pipeline of the
perplexity-clone repository, together with theorems checking the spec's
claims about it.

Sources embedded:
- `server/services/qualityService.ts` (citation validation, mock detection,
  quality scoring, re-ranking, evidence extraction);
- `src/services/queryAnalyzer.ts` (query complexity analysis with fallbacks);
- the multi-hop execution engine and client search service
  (`multiHopSearch.ts` / `searchService.ts`, concatenated in
  `src/unnamed/part_009`).

Modelling conventions: JavaScript strings are modelled as Lean `String`
(the inputs of interest are ASCII, so UTF-16 length and `toLowerCase`
coincide with the Lean counterparts); JavaScript numbers are modelled
exactly: `Int` where only integer arithmetic occurs, and an exact
integer formula for the percentage rounding. The combined ranking score
`qualityScore * 0.6 + relevanceScore * 0.4` is computed in IEEE-754
double arithmetic, which does not coincide with exact arithmetic even on
these small inputs (e.g. `4 * 0.6 = 2.4` but
`2 * 0.6 + 3 * 0.4 = 2.4000000000000004`); it is modelled bit-exactly by
`combinedScoreDouble`, which represents each double as an integer scaled
by `2 ^ 200` and performs the correct round-to-nearest-even of each
product and of the sum, so comparing the scaled integers is exactly
comparing the doubles. Fallible external calls are modelled as explicit
outcome parameters (`Except`, or a dedicated outcome type).
-/

/-! ## Generic string helpers (JavaScript semantics) -/

/-- Whether `sub` occurs as a contiguous run inside `l`. -/
def containsSub (sub : List Char) : List Char → Bool
  | [] => sub.isEmpty
  | c :: t => sub.isPrefixOf (c :: t) || containsSub sub t

/-- JavaScript `s.includes(sub)`: substring containment. -/
def jsIncludes (s sub : String) : Bool :=
  containsSub sub.toList s.toList

/-- JavaScript `s.toLowerCase()` (ASCII lowering, which is all that the
embedded call sites exercise). -/
def lowerStr (s : String) : String :=
  (s.toList.map Char.toLower).asString

/-- JavaScript `s.trim()`: strip leading and trailing whitespace. -/
def jsTrim (s : String) : String :=
  (((s.toList.dropWhile Char.isWhitespace).reverse.dropWhile
    Char.isWhitespace).reverse).asString

/-- Worker for `splitRuns`: `inSep` records whether the previous character
belonged to a separator run, `acc` holds the current piece reversed. -/
def splitRunsAux (p : Char → Bool) : List Char → Bool → List Char → List (List Char)
  | [], _, acc => [acc.reverse]
  | c :: rest, inSep, acc =>
    if p c then
      if inSep then splitRunsAux p rest true []
      else acc.reverse :: splitRunsAux p rest true []
    else
      splitRunsAux p rest false (c :: acc)

/-- Splits a character list on maximal runs of characters satisfying `p`,
with JavaScript `String.prototype.split(regex)` boundary semantics: a
separator run at the start or end of the input contributes an empty piece,
and an empty input yields one empty piece. -/
def splitRuns (p : Char → Bool) (l : List Char) : List (List Char) :=
  splitRunsAux p l false []

/-- JavaScript `s.split(/\s+/)`. -/
def splitWs (s : String) : List String :=
  (splitRuns Char.isWhitespace s.toList).map List.asString

/-- JavaScript `s.substring(0, n)` / taking the first `n` characters. -/
def takeChars (n : Nat) (s : String) : String :=
  (s.toList.take n).asString

/-- Index of the last space character of a string, if any
(JavaScript `s.lastIndexOf(' ')`, with `none` standing for `-1`). -/
def lastSpaceIdx (s : String) : Option Nat :=
  ((s.toList.enum.filter (fun p => p.2 = ' ')).map Prod.fst).getLast?

/-- Digit run to number, as JavaScript `parseInt(digits, 10)`. -/
def natOfDigits (ds : List Char) : Nat :=
  ds.foldl (fun n c => 10 * n + (c.toNat - 48)) 0

/-- JavaScript `Math.round((num / denom) * 100)` on exact values, for
`denom > 0`: `(200 * num + denom) / (2 * denom)` is
`⌊100 * num / denom + 1 / 2⌋`, i.e. rounding half towards positive
infinity, which is what `Math.round` does. -/
def roundPct (num denom : Nat) : Nat :=
  (200 * num + denom) / (2 * denom)

/-! ## Data model -/

/-- A web search result (`SearchResult` in `types.ts`). -/
structure SearchResult where
  id : String
  title : String
  url : String
  snippet : String
  domain : String
  favicon : Option String := none
  publishedDate : Option String := none
  evidence : Option String := none
  relevanceScore : Option ℤ := none
deriving DecidableEq

/-- The response of one search provider call (`SearchResponse`); a missing
`isMockSearch` field is falsy in the code and is modelled as `false`. -/
structure SearchResponse where
  results : List SearchResult
  query : String
  engine : Option String := none
  isMockSearch : Bool := false
deriving DecidableEq

/-- The result of the response-quality validator (`QualityCheckResult`). -/
structure QualityCheckResult where
  isValid : Bool
  score : ℤ
  issues : List String
  citationCoverage : ℤ
  citationValidity : ℤ
deriving DecidableEq

/-! ## Citation extraction and response-quality checking
(`server/services/qualityService.ts`) -/

/-- Core scan of `extractCitations`: the regex `/\[(\d+)\]/g` finds each
non-overlapping `[digits]` span, and the digits are parsed with
`parseInt`. After a match attempt at an opening bracket, the scan resumes
one character after that bracket; since a captured span contains no further
opening bracket, this visits exactly the matches the regex engine does. -/
def scanCitations : List Char → List Nat
  | [] => []
  | c :: rest =>
    if c = '[' then
      match rest.dropWhile Char.isDigit with
      | ']' :: _ =>
        if (rest.takeWhile Char.isDigit).isEmpty then scanCitations rest
        else natOfDigits (rest.takeWhile Char.isDigit) :: scanCitations rest
      | _ => scanCitations rest
    else scanCitations rest

/-- Keeps the first occurrence of each value, dropping later duplicates
(the `if (!citations.includes(num)) citations.push(num)` accumulation,
also `[...new Set(xs)]`). -/
def dedupKeepFirst (l : List Nat) : List Nat :=
  l.foldl (fun acc n => if n ∈ acc then acc else acc ++ [n]) []

/-- Ascending insertion used to model `citations.sort((a, b) => a - b)`. -/
def insertAsc (n : Nat) : List Nat → List Nat
  | [] => [n]
  | x :: xs => if n ≤ x then n :: x :: xs else x :: insertAsc n xs

/-- Ascending sort used to model `citations.sort((a, b) => a - b)`. -/
def sortAsc : List Nat → List Nat
  | [] => []
  | x :: xs => insertAsc x (sortAsc xs)

/-- `extractCitations(text)`: distinct `[n]` citation numbers of the text,
sorted ascending. -/
def extractCitations (text : String) : List Nat :=
  sortAsc (dedupKeepFirst (scanCitations text.toList))

/-- The exact character span of a citation marker `[n]` with digit run
`ds`. -/
def citationMarker (ds : List Char) : List Char :=
  '[' :: (ds ++ [']'])

/-- The number `n` appears as a citation marker `[n]` somewhere in the
text: some non-empty digit run evaluating to `n`, enclosed in brackets,
occurs as a contiguous span of the text. -/
def HasCitationMarker (text : String) (n : Nat) : Prop :=
  ∃ ds : List Char, ds ≠ [] ∧ (∀ c ∈ ds, c.isDigit = true) ∧
    natOfDigits ds = n ∧ citationMarker ds <:+: text.toList

/-- `validateCitations(citations, sourceCount)`: a citation is valid iff
`1 ≤ n ≤ sourceCount`; returns the valid and invalid ones in order. -/
def validateCitations (citations : List Nat) (sourceCount : Nat) :
    List Nat × List Nat :=
  (citations.filter (fun c => 1 ≤ c && c ≤ sourceCount),
   citations.filter (fun c => !(1 ≤ c && c ≤ sourceCount)))

/-- `calculateCitationCoverage(citations, sourceCount)`. -/
def calculateCitationCoverage (citations : List Nat) (sourceCount : Nat) : ℤ :=
  if sourceCount = 0 then 0
  else
    let uniqueCitations := dedupKeepFirst citations
    let validCitations := uniqueCitations.filter (fun c => 1 ≤ c && c ≤ sourceCount)
    (roundPct validCitations.length sourceCount : ℤ)

/-- `checkResponseQuality(responseText, sources)`. -/
def checkResponseQuality (responseText : String) (sources : List SearchResult) :
    QualityCheckResult :=
  let sourceCount := sources.length
  let citations := extractCitations responseText
  let issues0 : List String := []
  let score0 : ℤ := 100
  let noCit := sourceCount > 0 && citations.length = 0
  let issues1 := if noCit then
      issues0 ++ ["Response lacks citations despite having search sources"]
    else issues0
  let score1 := if noCit then score0 - 40 else score0
  let valid := (validateCitations citations sourceCount).1
  let invalid := (validateCitations citations sourceCount).2
  let issues2 := if invalid.length > 0 then
      issues1 ++ ["Invalid citation numbers: [" ++
        String.intercalate "], [" (invalid.map toString) ++
        "] (only " ++ toString sourceCount ++ " sources available)"]
    else issues1
  let score2 := if invalid.length > 0 then score1 - 20 else score1
  let coverage := calculateCitationCoverage citations sourceCount
  let citationValidity : ℤ :=
    if citations.length > 0 then (roundPct valid.length citations.length : ℤ)
    else 0
  let lowCov := sourceCount > 0 && coverage < 50
  let issues3 := if lowCov then
      issues2 ++ ["Low citation coverage: only " ++ toString coverage ++
        "% of sources were cited"]
    else issues2
  let score3 := if lowCov then score2 - 15 else score2
  let someInvalid := citationValidity < 100 && citations.length > 0
  let issues4 := if someInvalid then
      issues3 ++ ["Some citations are invalid: " ++ toString citationValidity ++
        "% validity"]
    else issues3
  let score4 := if someInvalid then score3 - 10 else score3
  let tooShort := responseText.length < 100 && sourceCount > 0
  let issues5 := if tooShort then
      issues4 ++ ["Response is unusually short given available sources"]
    else issues4
  let score5 := if tooShort then score4 - 10 else score4
  let tooLong := responseText.length > 1000 && citations.length = 0 && sourceCount > 0
  let issues6 := if tooLong then
      issues5 ++ ["Long response without citations - may contain unsourced information"]
    else issues5
  let score6 := if tooLong then score5 - 20 else score5
  let finalScore := max 0 score6
  { isValid := issues6.isEmpty && decide (finalScore ≥ 70)
    score := finalScore
    issues := issues6
    citationCoverage := coverage
    citationValidity := citationValidity }

/-! ## Retrieval quality filter and re-ranker
(`server/services/qualityService.ts`) -/

/-- Domain blacklist: low-quality or mock domains. -/
def DOMAIN_BLACKLIST : List String :=
  ["example.com", "test.com", "localhost", "127.0.0.1"]

/-- Trusted domains that get a quality boost. -/
def TRUSTED_DOMAINS : List String :=
  ["wikipedia.org", "edu", "gov", "nature.com", "stackoverflow.com",
   "github.com", "reddit.com", "medium.com", "investopedia.com",
   "forbes.com", "techcrunch.com", "arstechnica.com"]

/-- JavaScript `s.endsWith(sub)`. -/
def jsEndsWith (s sub : String) : Bool :=
  sub.toList.isSuffixOf s.toList

/-- Replaces every maximal whitespace run by `sep`
(JavaScript `s.replace(/\s+/g, sep)` for a one-character replacement). -/
def replaceWsRuns (sep : String) (s : String) : String :=
  String.intercalate sep (splitWs s)

/-- `isMockResult(result, query)`: heuristic detection of mock/generated
search results. -/
def isMockResult (result : SearchResult) (query : String) : Bool :=
  let domain := lowerStr result.domain
  let url := lowerStr result.url
  let title := lowerStr result.title
  let queryLower := lowerStr query
  if DOMAIN_BLACKLIST.any (fun blacklisted => jsIncludes domain blacklisted) then
    true
  else if jsIncludes domain "wikipedia.org" &&
      (jsIncludes url (replaceWsRuns "_" queryLower) && title = queryLower) then
    true
  else if jsIncludes domain "example.com" &&
      jsIncludes url (replaceWsRuns "-" queryLower) then
    true
  else
    let queryWords := (splitWs queryLower).filter (fun w => w.length > 3)
    if queryWords.length > 0 &&
        (jsIncludes url (String.intercalate "-" (queryWords.take 3)) &&
          (jsIncludes domain "example.com" || jsIncludes domain "test")) then
      true
    else
      let isLongQuery := query.length > 100
      if !isLongQuery &&
          (title = queryLower || title = queryLower ++ " - wikipedia" ||
            title = "understanding " ++ queryLower) then
        true
      else
        false

/-- `calculateDomainCredibility(domain)`. -/
def calculateDomainCredibility (domain : String) : ℤ :=
  let domainLower := lowerStr domain
  if DOMAIN_BLACKLIST.any (fun blacklisted => jsIncludes domainLower blacklisted) then
    -5
  else if jsEndsWith domainLower ".edu" || jsEndsWith domainLower ".gov" then
    5
  else if TRUSTED_DOMAINS.any (fun trusted => jsIncludes domainLower trusted) then
    3
  else
    1

/-- `calculateUrlValidity(url, query)`. -/
def calculateUrlValidity (url : String) (query : String) : ℤ :=
  let urlLower := lowerStr url
  let queryLower := lowerStr query
  let queryWords := (splitWs queryLower).filter (fun w => w.length > 3)
  if jsIncludes urlLower "example.com" || jsIncludes urlLower "test.com" then
    -3
  else if queryWords.length > 0 &&
      (jsIncludes urlLower (String.intercalate "-" (queryWords.take 3)) &&
        (jsIncludes urlLower "example" || jsIncludes urlLower "test")) then
    -3
  else
    2

/-- `calculateSnippetQuality(snippet)`. -/
def calculateSnippetQuality (snippet : String) : ℤ :=
  if snippet.length < 30 then -2
  else min 3 ((snippet.length : ℤ) / 50)

/-- `calculateTitleRelevance(title, query)`. -/
def calculateTitleRelevance (title : String) (query : String) : ℤ :=
  let titleLower := lowerStr title
  let queryLower := lowerStr query
  let queryWords := (splitWs queryLower).filter (fun w => w.length > 2)
  let isLongQuery := query.length > 100
  if titleLower = queryLower then
    if isLongQuery then 0 else -1
  else
    let matchCount := (queryWords.filter (fun word => jsIncludes titleLower word)).length
    if 2 * matchCount ≥ queryWords.length then 2 else 0

/-- `calculateQualityScore(result, query)`: the four additive signals plus
basic keyword matching; long queries are scored through a ten-word prefix. -/
def calculateQualityScore (result : SearchResult) (query : String) : ℤ :=
  let scoringQuery :=
    if query.length > 150 then String.intercalate " " ((splitWs query).take 10)
    else query
  let base := calculateDomainCredibility result.domain +
    calculateUrlValidity result.url query +
    calculateSnippetQuality result.snippet +
    calculateTitleRelevance result.title scoringQuery
  let queryLower := lowerStr scoringQuery
  let queryWords := splitWs queryLower
  let titleLower := lowerStr result.title
  let snippetLower := lowerStr result.snippet
  queryWords.foldl
    (fun score word =>
      if word.length > 2 then
        let score1 := if jsIncludes titleLower word then score + 2 else score
        if jsIncludes snippetLower word then score1 + 1 else score1
      else score)
    base

/-- `filterLowQualityResults(results, query)`: drop flagged-mock results and
results with a negative quality score. -/
def filterLowQualityResults (results : List SearchResult) (query : String) :
    List SearchResult :=
  results.filter (fun result =>
    !isMockResult result query && calculateQualityScore result query ≥ 0)

/-- `calculateRelevanceScore(result, query)`: keyword scoring, +3 per
significant query word in the title, +1 in the snippet, +2 for trusted
domains. -/
def calculateRelevanceScore (result : SearchResult) (query : String) : ℤ :=
  let queryWords := splitWs (lowerStr query)
  let titleLower := lowerStr result.title
  let snippetLower := lowerStr result.snippet
  let base := queryWords.foldl
    (fun score word =>
      if word.length > 2 then
        let score1 := if jsIncludes titleLower word then score + 3 else score
        if jsIncludes snippetLower word then score1 + 1 else score1
      else score)
    0
  if TRUSTED_DOMAINS.any (fun domain => jsIncludes result.domain domain) then
    base + 2
  else
    base

/-- Sentence list of a snippet: `snippet.split(/[.!?]+/)` filtered to the
pieces with non-blank content. -/
def sentencesOf (snippet : String) : List String :=
  ((splitRuns (fun c => c = '.' || c = '!' || c = '?') snippet.toList).map
    List.asString).filter (fun s => (jsTrim s).length > 0)

/-- Whether a sentence contains at least half of the query words
(`matchCount >= queryWords.length / 2` on exact numbers). -/
def sentenceMatches (queryWords : List String) (sentence : String) : Bool :=
  2 * ((queryWords.filter (fun word => jsIncludes (lowerStr sentence) word)).length)
    ≥ queryWords.length

/-- `extractEvidence(result, query)`: first sentence of the snippet
containing at least half of the query's words, else the first 200
characters of the snippet. -/
def extractEvidence (result : SearchResult) (query : String) : String :=
  let queryWords := splitWs (lowerStr query)
  match (sentencesOf result.snippet).find? (sentenceMatches queryWords) with
  | some sentence => jsTrim sentence
  | none => takeChars 200 result.snippet

/-! ### Exact model of the IEEE-754 double combined score

The code computes `qualityScore * 0.6 + relevanceScore * 0.4` in
JavaScript number (IEEE-754 binary64) arithmetic and sorts by comparing
those doubles. Every value that arises here is a double, and a binary64
value with magnitude in the normal range is exactly an integer multiple
of `2 ^ -200` (far more headroom than needed), so we represent each
double by that integer (its value scaled by `2 ^ 200`). IEEE
multiplication and addition return the exact result correctly rounded to
53 significant bits (round to nearest, ties to even), which `flScaled`
performs on the scaled representation; double comparison is integer
comparison of the representations. -/

/-- Fuel-bounded binary length of a natural number (`0` for `0`). The
structural fuel of 1100 covers every value below `2 ^ 1100`, far beyond
any magnitude reachable here (scaled scores stay below `2 ^ 220`). -/
def bitlenAux : Nat → Nat → Nat
  | 0, _ => 0
  | fuel + 1, n => if n = 0 then 0 else bitlenAux fuel (n / 2) + 1

/-- Binary length of a natural number. -/
def bitlen (n : Nat) : Nat := bitlenAux 1100 n

/-- Rounds the exact value `x / 2 ^ 200` to the nearest IEEE binary64
value (round to nearest, ties to even), returning that double scaled by
`2 ^ 200` again: the significand is cut to 53 bits by rounding to the
nearest multiple of `2 ^ (b - 53)` where `b` is the binary length of
`|x|`. Valid throughout the normal range exercised here (no overflow or
subnormals: the scores are small integers and the products with
`0.6` / `0.4` stay far inside the normal range). -/
def flScaled (x : ℤ) : ℤ :=
  if x = 0 then 0
  else
    let n := x.natAbs
    let b := bitlen n
    if b ≤ 53 then x
    else
      let u := 2 ^ (b - 53)
      let q := n / u
      let rem := n % u
      let m := if 2 * rem < u then q
        else if u < 2 * rem then q + 1
        else if q % 2 = 0 then q else q + 1
      (if x < 0 then -1 else 1) * ((m * u : ℕ) : ℤ)

/-- The IEEE binary64 value of the literal `0.6`, scaled by `2 ^ 200`:
`0.6` rounds to `5404319552844595 / 2 ^ 53`. -/
def double06 : ℤ := 5404319552844595 * 2 ^ 147

/-- The IEEE binary64 value of the literal `0.4`, scaled by `2 ^ 200`:
`0.4` rounds to `3602879701896397 / 2 ^ 53`. -/
def double04 : ℤ := 3602879701896397 * 2 ^ 147

/-- IEEE double multiplication of an integer (every score is a small
integer, hence an exact double) by a scaled double constant: the exact
product, correctly rounded. -/
def jsMulScaled (q c : ℤ) : ℤ := flScaled (q * c)

/-- IEEE double addition of two scaled doubles: the exact sum, correctly
rounded. -/
def jsAddScaled (x y : ℤ) : ℤ := flScaled (x + y)

/-- The combined score `qualityScore * 0.6 + relevanceScore * 0.4` as the
program's IEEE double arithmetic produces it, scaled by `2 ^ 200`:
comparing these integers is exactly comparing the program's doubles. -/
def combinedScoreDouble (quality relevance : ℤ) : ℤ :=
  jsAddScaled (jsMulScaled quality double06) (jsMulScaled relevance double04)

/-- A result enriched with the scoring fields that `rerankResults` spreads
onto it before sorting (`relevanceScore` and `evidence` are kept on the
result; `qualityScore` and the combined score are stripped again at the
end). `combinedScoreS` holds the IEEE double
`0.6 × qualityScore + 0.4 × relevanceScore` scaled by `2 ^ 200`
(see `combinedScoreDouble`). -/
structure ScoredResult where
  result : SearchResult
  qualityScore : ℤ
  combinedScoreS : ℤ
deriving DecidableEq

/-- The scoring step of `rerankResults` for one filtered result. -/
def scoreResult (query : String) (result : SearchResult) : ScoredResult :=
  let qualityScore := calculateQualityScore result query
  let relevanceScore := calculateRelevanceScore result query
  { result := { result with
      relevanceScore := some relevanceScore
      evidence := some (extractEvidence result query) }
    qualityScore := qualityScore
    combinedScoreS := combinedScoreDouble qualityScore relevanceScore }

/-- Stable insertion for the descending sort
`scored.sort((a, b) => (b.combinedScore || 0) - (a.combinedScore || 0))`,
where `combinedScore` is the IEEE double (represented scaled, so the
comparison is the double comparison): an element moves past only strictly
greater scores, so equal doubles keep their original relative order, as
JavaScript's stable sort does. -/
def insertDesc (r : ScoredResult) : List ScoredResult → List ScoredResult
  | [] => [r]
  | x :: xs =>
    if x.combinedScoreS > r.combinedScoreS then x :: insertDesc r xs
    else r :: x :: xs

/-- Stable descending sort by combined score. -/
def sortDesc : List ScoredResult → List ScoredResult
  | [] => []
  | x :: xs => insertDesc x (sortDesc xs)

/-- The scored candidate list of `rerankResults` (after filtering, before
sorting), in input order. -/
def scoredCandidates (results : List SearchResult) (query : String) :
    List ScoredResult :=
  (filterLowQualityResults results query).map (scoreResult query)

/-- `rerankResults(results, query)`: filter, score, sort descending by
combined score, return the top 7 with the temporary scoring fields
removed. -/
def rerankResults (results : List SearchResult) (query : String) :
    List SearchResult :=
  ((sortDesc (scoredCandidates results query)).take 7).map (fun s => s.result)

/-- The combined score of a result recomputed from its retained fields in
EXACT rational arithmetic (`0.6 × qualityScore + 0.4 × relevanceScore`);
this is the tie notion of the original claim, which the program's IEEE
double arithmetic refines strictly. -/
def combinedScoreOf (result : SearchResult) (query : String) : ℚ :=
  (calculateQualityScore result query : ℚ) * 0.6 +
    (calculateRelevanceScore result query : ℚ) * 0.4

/-- The (scaled) IEEE double combined score of a result, recomputed from
its retained fields — the quantity the program's sort actually compares. -/
def jsCombinedScore (result : SearchResult) (query : String) : ℤ :=
  combinedScoreDouble (calculateQualityScore result query)
    (calculateRelevanceScore result query)

/-- Under the query `"cat dog fox"`: quality score 4 (credibility 1,
URL validity 2, snippet band 1, no title/keyword hits) and relevance
score 0, so the exact combined score is `4 * 0.6 + 0 * 0.4 = 2.4` while
the double is `fl(4 * 0.6) = 2.4` exactly. -/
def tieA : SearchResult :=
  { id := "tie-a"
    title := "Irrelevant page"
    url := "https://siteone.com/page1"
    snippet := "Some neutral description here, with extra filler words.."
    domain := "siteone.com" }

/-- Under the query `"cat dog fox"`: quality score 2 (credibility 1,
URL validity −3 from the `test.com` path segment, snippet band 2, keyword
`cat` in the title +2) and relevance score 3 (`cat` in the title), so the
exact combined score is `2 * 0.6 + 3 * 0.4 = 2.4` as well, but the IEEE
double `fl(fl(2 * 0.6) + fl(3 * 0.4)) = 2.4000000000000004` is strictly
greater than `tieA`'s. -/
def tieB : SearchResult :=
  { id := "tie-b"
    title := "cat house"
    url := "https://mysite.org/test.com/page"
    snippet := "A plain paragraph that keeps going for a little while longer so that its length lands in the right band."
    domain := "mysite.org" }

/-! ## Client search service (`searchService.ts`, in `src/unnamed/part_009`) -/

/-- UTF-8 bytes of one character (JavaScript `encodeURIComponent` percent
escapes in UTF-8). -/
def utf8Bytes (c : Char) : List Nat :=
  let n := c.toNat
  if n < 128 then [n]
  else if n < 2048 then [192 + n / 64, 128 + n % 64]
  else if n < 65536 then [224 + n / 4096, 128 + n / 64 % 64, 128 + n % 64]
  else [240 + n / 262144, 128 + n / 4096 % 64, 128 + n / 64 % 64, 128 + n % 64]

/-- Uppercase hexadecimal digit. -/
def hexDigit (n : Nat) : Char :=
  if n < 10 then Char.ofNat (48 + n) else Char.ofNat (55 + n)

/-- Characters `encodeURIComponent` leaves unescaped: alphanumerics and
`- _ . ! ~ * ( )` and the apostrophe (code point 39). -/
def isUriUnreserved (c : Char) : Bool :=
  c.isAlphanum || c = '-' || c = '_' || c = '.' || c = '!' || c = '~' ||
    c = '*' || c = '(' || c = ')' || c.toNat = 39

/-- JavaScript `encodeURIComponent(s)`. -/
def encodeURIComponent (s : String) : String :=
  (s.toList.flatMap (fun c =>
    if isUriUnreserved c then [c]
    else (utf8Bytes c).flatMap (fun b => ['%', hexDigit (b / 16), hexDigit (b % 16)]))).asString

/-- `getFaviconUrl(domain)`. -/
def getFaviconUrl (domain : String) : String :=
  "https://www.google.com/s2/favicons?domain=" ++ domain ++ "&sz=32"

/-- `mockSearch(query)`: contextual fake results for development/demo.
The result has no `isMockSearch` field, which callers read as falsy. -/
def mockSearch (query : String) : SearchResponse :=
  let keywords := lowerStr query
  let mockResults : List SearchResult :=
    [{ id := "mock-1"
       title := query ++ " - Wikipedia"
       url := "https://en.wikipedia.org/wiki/" ++
         encodeURIComponent (replaceWsRuns "_" query)
       snippet := "A comprehensive overview of " ++ query ++
         ". This article covers the key concepts, history, and modern applications..."
       domain := "en.wikipedia.org"
       favicon := some (getFaviconUrl "en.wikipedia.org") },
     { id := "mock-2"
       title := "Understanding " ++ query ++ " | A Complete Guide"
       url := "https://www.example.com/guide/" ++
         encodeURIComponent (replaceWsRuns "-" (lowerStr query))
       snippet := "Learn everything you need to know about " ++ query ++
         ". Our comprehensive guide covers fundamentals to advanced topics..."
       domain := "example.com"
       favicon := some (getFaviconUrl "example.com") },
     { id := "mock-3"
       title := query ++ " Explained Simply - Medium"
       url := "https://medium.com/topic/" ++
         encodeURIComponent (replaceWsRuns "-" (lowerStr query))
       snippet := "Breaking down " ++ query ++
         " into simple, understandable concepts. Perfect for beginners looking to understand the basics..."
       domain := "medium.com"
       favicon := some (getFaviconUrl "medium.com") }]
  let withTech :=
    if jsIncludes keywords "programming" || jsIncludes keywords "code" ||
        jsIncludes keywords "javascript" || jsIncludes keywords "react" ||
        jsIncludes keywords "typescript" then
      mockResults ++
        [{ id := "mock-4"
           title := query ++ " - Stack Overflow"
           url := "https://stackoverflow.com/questions/tagged/" ++
             encodeURIComponent (replaceWsRuns "-" (lowerStr query))
           snippet := "Community discussions and solutions related to " ++ query ++
             ". Find answers from experienced developers..."
           domain := "stackoverflow.com"
           favicon := some (getFaviconUrl "stackoverflow.com") }]
    else mockResults
  let withScience :=
    if jsIncludes keywords "quantum" || jsIncludes keywords "physics" ||
        jsIncludes keywords "science" || jsIncludes keywords "computer" then
      withTech ++
        [{ id := "mock-5"
           title := query ++ " Research - Nature"
           url := "https://www.nature.com/search?q=" ++ encodeURIComponent query
           snippet := "Latest research and scientific discoveries about " ++ query ++
             ". Peer-reviewed articles and publications..."
           domain := "nature.com"
           favicon := some (getFaviconUrl "nature.com") }]
    else withTech
  { results := withScience.take 5, query := query }

/-- `webSearch(query)`. The backend provider call (`fetch` of `/api/search`
plus JSON decode) is modelled by an oracle giving each query's outcome.
On any failure the function recovers internally: with no direct-provider
API keys configured it returns `mockSearch(query)` (and with keys, the
Brave/SerpAPI helpers likewise return `mockSearch(query)` on their own
failure); `sendTelemetry` swallows its own errors. `webSearch` therefore
never throws. -/
def webSearch (oracle : String → Except String SearchResponse)
    (query : String) : SearchResponse :=
  match oracle query with
  | Except.ok data => data
  | Except.error _ => mockSearch query

/-! ## Query complexity analyzer (`src/services/queryAnalyzer.ts`) -/

/-- The complexity tier of `QueryAnalysis`. -/
inductive Complexity where
  | simple
  | moderate
  | complex
deriving DecidableEq

/-- `QueryAnalysis` produced by the analyzer. -/
structure QueryAnalysis where
  needsMultiStep : Bool
  complexity : Complexity
  suggestedSteps : List String
  reasoning : String
deriving DecidableEq

/-- The fields of the JSON object parsed out of a successful
generation-service response; each may be absent (`parsed.x || default`). -/
structure ParsedAnalysis where
  needsMultiStep : Option Bool := none
  complexity : Option Complexity := none
  suggestedSteps : Option (List String) := none
  reasoning : Option String := none
deriving DecidableEq

/-- Outcome of the analyzer's generation-service call: the call throws
(`fail`, which also covers a `{...}` span whose `JSON.parse` throws, since
that exception reaches the same `catch`); it succeeds and the response text
contains a parsable `{...}` span (`okJson`); or it succeeds but the
response text contains no `{...}` span (`okNoJson`). -/
inductive GenOutcome where
  | fail
  | okJson (parsed : ParsedAnalysis)
  | okNoJson
deriving DecidableEq

/-- Comparison/multi-topic markers of the heuristic fallback regex
`/(and|or|compare|versus|vs|versus|difference between)/i` (the source
lists `versus` twice). -/
def multiTopicMarkers : List String :=
  ["and", "or", "compare", "versus", "vs", "versus", "difference between"]

/-- Sequential markers of the heuristic fallback regex
`/(first|then|after|before|step|process)/i`. -/
def sequentialMarkers : List String :=
  ["first", "then", "after", "before", "step", "process"]

/-- Case-insensitive substring test, as `/.../ i.test(query)` performs for
an alternation of literal lowercase words. -/
def matchesAnyMarker (markers : List String) (query : String) : Bool :=
  markers.any (fun m => jsIncludes (lowerStr query) m)

/-- `analyzeQuery(query)` as a function of the generation-service outcome:
a parsed JSON object is read with falsy-guarded defaults; a successful call
without JSON falls back to the pattern heuristic; a throwing call is caught
and answered with the static simple analysis. -/
def analyzeQuery (query : String) (outcome : GenOutcome) : QueryAnalysis :=
  match outcome with
  | GenOutcome.okJson parsed =>
      { needsMultiStep := parsed.needsMultiStep.getD false
        complexity := parsed.complexity.getD Complexity.simple
        suggestedSteps := parsed.suggestedSteps.getD []
        reasoning := parsed.reasoning.getD "" }
  | GenOutcome.okNoJson =>
      let hasMultipleTopics := matchesAnyMarker multiTopicMarkers query
      let hasSequential := matchesAnyMarker sequentialMarkers query
      { needsMultiStep := hasMultipleTopics || hasSequential
        complexity :=
          if hasMultipleTopics || hasSequential then Complexity.moderate
          else Complexity.simple
        suggestedSteps := []
        reasoning :=
          if hasMultipleTopics then "Query contains multiple topics"
          else "Simple query" }
  | GenOutcome.fail =>
      { needsMultiStep := false
        complexity := Complexity.simple
        suggestedSteps := []
        reasoning := "Analysis failed, defaulting to simple" }

/-! ## Task planner and multi-hop execution engine
(`multiHopSearch.ts`, in `src/unnamed/part_009`) -/

/-- A planned search task (`Task` in `taskPlanner.ts`; named `PlanTask`
here because `Task` already exists in Lean's root namespace). -/
structure PlanTask where
  id : String
  description : String
  searchQuery : String
  dependsOn : List String
deriving DecidableEq

/-- Modelled from the spec: `planTasks` lives in `taskPlanner.ts`, which is
not among the available sources (only its import and call sites are).
Spec §4.2: when `suggestedSteps` is non-empty, "each suggested step seeds
one Task whose `searchQuery` is a focused rephrasing of that step", with
ids "generated deterministically and uniquely within a plan (e.g.,
`task_<index>`)"; when absent, "the planner must derive a decomposition
from the query text directly". The focused rephrasing is modelled as the
step text itself and the no-steps decomposition as the one-task plan
searching the full query, so a plan is never empty. -/
def planTasks (query : String) (suggestedSteps : List String) : List PlanTask :=
  if suggestedSteps.isEmpty then
    [{ id := "task_0", description := query, searchQuery := query, dependsOn := [] }]
  else
    suggestedSteps.enum.map (fun p =>
      { id := "task_" ++ toString p.1, description := p.2, searchQuery := p.2,
        dependsOn := [] })

/-- One invocation of the `onProgress` callback
(`onProgress(i + 1, tasks.length, task, results)`). -/
structure StepEvent where
  step : Nat
  total : Nat
  task : PlanTask
  results : List SearchResult
deriving DecidableEq

/-- `MultiHopResult` (the nested `analysis` object is flattened into the
two `analysis*` fields). -/
structure MultiHopResult where
  finalResults : List SearchResult
  allResults : List SearchResult
  executionPlan : List PlanTask
  analysisNeedsMultiStep : Bool
  analysisComplexity : String
  hasMockSearch : Bool
deriving DecidableEq

/-- Loop state of the complex path of `executeMultiHopSearch`: the running
aggregate, the executed tasks with rewritten queries, the per-task result
map (`taskResults`, as an association list in insertion order), the mock
flag, and the progress events emitted so far. -/
structure HopState where
  allResults : List SearchResult
  executedTasks : List PlanTask
  taskResults : List (String × List SearchResult)
  hasMockSearch : Bool
  events : List StepEvent
deriving DecidableEq

/-- The empty initial loop state. -/
def initHopState : HopState :=
  { allResults := [], executedTasks := [], taskResults := [],
    hasMockSearch := false, events := [] }

/-- Bounds a task's search query to 100 characters, cutting at the last
space when that lies past offset 50, else hard-truncating
(`searchQuery.substring(0, 100)` plus `lastIndexOf(' ')`). -/
def boundQuery (searchQuery : String) : String :=
  if searchQuery.length > 100 then
    let truncated := takeChars 100 searchQuery
    match lastSpaceIdx truncated with
    | some lastSpace =>
        if lastSpace > 50 then takeChars lastSpace truncated else truncated
    | none => truncated
  else searchQuery

/-- The search part of the complex-path loop for one task: bound the
query, search, retry once with a four-keyword simplification when the
first call returned nothing and the bounded query is longer than 20
characters. Returns the adopted results, the final (possibly rewritten)
query, and whether this hop's adopted responses carried the provider's
mock flag. -/
def taskSearchOutcome (oracle : String → Except String SearchResponse)
    (task : PlanTask) : List SearchResult × String × Bool :=
  let searchQuery0 := boundQuery task.searchQuery
  let searchResponse := webSearch oracle searchQuery0
  let mock0 := searchResponse.isMockSearch
  if searchResponse.results.isEmpty && searchQuery0.length > 20 then
    let words := (splitWs searchQuery0).filter (fun w => w.length > 2)
    let simplifiedQuery := String.intercalate " " (words.take 4)
    if simplifiedQuery ≠ searchQuery0 && simplifiedQuery.length > 0 then
      let retryResponse := webSearch oracle simplifiedQuery
      if retryResponse.results.length > 0 then
        (retryResponse.results, simplifiedQuery,
          mock0 || retryResponse.isMockSearch)
      else (searchResponse.results, searchQuery0, mock0)
    else (searchResponse.results, searchQuery0, mock0)
  else (searchResponse.results, searchQuery0, mock0)

/-- The body of the complex-path loop for one task: run the search with
retry, then record results, executed task, progress event and mock flag
(`hasMockSearch |=` the hop's flag; boolean or-assignment is associative,
so folding the hop flag in one step is equivalent to the code's two
`|=` updates). The unmet-dependency check only emits a `console.warn` and
never alters execution, so it has no observable effect here. -/
def runTask (oracle : String → Except String SearchResponse) (total i : Nat)
    (st : HopState) (task : PlanTask) : HopState :=
  let outcome := taskSearchOutcome oracle task
  { allResults := st.allResults ++ outcome.1
    executedTasks := st.executedTasks ++ [{ task with searchQuery := outcome.2.1 }]
    taskResults := st.taskResults ++ [(task.id, outcome.1)]
    hasMockSearch := st.hasMockSearch || outcome.2.2
    events := st.events ++
      [{ step := i + 1, total := total,
         task := { task with searchQuery := outcome.2.1 }, results := outcome.1 }] }

/-- The sequential task loop (`for (let i = 0; i < tasks.length; i++)`). -/
def runTasks (oracle : String → Except String SearchResponse) (total : Nat) :
    Nat → HopState → List PlanTask → HopState
  | _, st, [] => st
  | i, st, task :: rest =>
      runTasks oracle total (i + 1) (runTask oracle total i st task) rest

/-- The last `n` entries of a list (`allResults.slice(-10)`). -/
def lastN (n : Nat) (l : List α) : List α :=
  l.drop (l.length - n)

/-- `executeMultiHopSearch(query, analysis, onProgress)`: the `analysis`
argument is flattened into `needsMultiStep`, `complexity` and
`suggestedSteps`, and the `onProgress` invocations are returned as the
second component, in call order. -/
def executeMultiHopSearch (oracle : String → Except String SearchResponse)
    (query : String) (needsMultiStep : Bool) (complexity : String)
    (suggestedSteps : List String) : MultiHopResult × List StepEvent :=
  if needsMultiStep then
    let tasks := planTasks query suggestedSteps
    let final := runTasks oracle tasks.length 0 initHopState tasks
    ({ finalResults :=
         if final.allResults.length > 0 then lastN 10 final.allResults else []
       allResults := if final.allResults.length > 0 then final.allResults else []
       executionPlan := final.executedTasks
       analysisNeedsMultiStep := true
       analysisComplexity := complexity
       hasMockSearch := final.hasMockSearch }, final.events)
  else
    let searchResponse := webSearch oracle query
    let hasMock := searchResponse.isMockSearch
    let baseResult : MultiHopResult :=
      { finalResults := searchResponse.results
        allResults := searchResponse.results
        executionPlan :=
          [{ id := "task_0", description := query, searchQuery := query,
             dependsOn := [] }]
        analysisNeedsMultiStep := false
        analysisComplexity := complexity
        hasMockSearch := hasMock }
    if searchResponse.results.length = 0 then
      let simplifiedQuery :=
        jsTrim (((query.toList.takeWhile (fun c => c ≠ ':')).takeWhile
          (fun c => c ≠ '?')).asString)
      if simplifiedQuery ≠ query && simplifiedQuery.length > 0 then
        let retryResponse := webSearch oracle simplifiedQuery
        if retryResponse.results.length > 0 then
          ({ finalResults := retryResponse.results
             allResults := retryResponse.results
             executionPlan :=
               [{ id := "task_0", description := query,
                  searchQuery := simplifiedQuery, dependsOn := [] }]
             analysisNeedsMultiStep := false
             analysisComplexity := complexity
             hasMockSearch := retryResponse.isMockSearch }, [])
        else (baseResult, [])
      else (baseResult, [])
    else (baseResult, [])

/-! ## Spec-side reference definitions

These two definitions follow the spec's words (not the source) and exist
only to be compared with the source-derived definitions above. -/

/-- The relevance score as the spec describes it: +2 per significant query
word (length > 2) found in the title, +1 per significant query word found
in the snippet, +2 flat for trusted domains. -/
def specRelevanceScore (result : SearchResult) (query : String) : ℤ :=
  let significantWords := (splitWs (lowerStr query)).filter (fun w => w.length > 2)
  2 * ((significantWords.filter
        (fun w => jsIncludes (lowerStr result.title) w)).length : ℤ) +
    ((significantWords.filter
        (fun w => jsIncludes (lowerStr result.snippet) w)).length : ℤ) +
    (if TRUSTED_DOMAINS.any (fun domain => jsIncludes result.domain domain) then 2
     else 0)

/-- Evidence extraction as the spec describes it: the first sentence whose
overlap with the query's significant words (length > 3) covers at least
half of them, else the first 200 characters of the snippet. -/
def specExtractEvidence (result : SearchResult) (query : String) : String :=
  let significantWords := (splitWs (lowerStr query)).filter (fun w => w.length > 3)
  match (sentencesOf result.snippet).find? (sentenceMatches significantWords) with
  | some sentence => jsTrim sentence
  | none => takeChars 200 result.snippet

/-! ## Sample data used by concrete instances -/

/-- A plain, unremarkable source/result used where only the presence of a
source matters. -/
def sampleSource : SearchResult :=
  { id := "s1", title := "Some page", url := "https://site-one.com/page",
    snippet := "Some page content.", domain := "site-one.com" }

/-- Concrete result for the relevance-score comparison: its title is the
single significant query word, its snippet and domain match nothing. -/
def relevanceSample : SearchResult :=
  { id := "r1", title := "cats", url := "https://foo.com/a",
    snippet := "", domain := "foo.com" }

/-- Concrete result for the evidence-extraction comparison: the first
sentence matches only the short query words, the second only the
significant ones. -/
def evidenceSample : SearchResult :=
  { id := "r2", title := "t", url := "https://foo.com/b",
    snippet := "It is a great day. Quantum computer news.", domain := "foo.com" }

/-- A result whose domain sits on the placeholder blacklist. -/
def blacklistedSample : SearchResult :=
  { id := "m", title := "x", url := "https://example.com/a",
    snippet := "", domain := "example.com" }

/-! ## Basic lemmas about the string helpers -/

/-- `containsSub` decides the contiguous-substring relation. -/
theorem containsSub_iff (sub : List Char) (l : List Char) :
    containsSub sub l = true ↔ sub <:+: l := by
  induction l with
  | nil =>
    simp only [containsSub, List.isEmpty_iff]
    constructor
    · rintro rfl
      exact ⟨[], [], rfl⟩
    · rintro ⟨s, t, h⟩
      simp only [List.append_eq_nil] at h
      exact h.1.2
  | cons c t ih =>
    rw [ List.infix_cons_iff]
    simp only [containsSub, Bool.or_eq_true, ih, List.isPrefixOf_iff_prefix]

/-- `jsIncludes` decides the substring relation on the character lists. -/
theorem jsIncludes_iff (s sub : String) :
    jsIncludes s sub = true ↔ sub.toList <:+: s.toList :=
  containsSub_iff sub.toList s.toList

/-! ## C1: analyzer failure fallback -/

/-- C1 counterexample: the query "Compare React vs Vue" matches a
comparison marker, yet when the generation-service call throws, the catch
branch of `analyzeQuery` returns `needsMultiStep = false` (and complexity
`simple`) instead of applying the heuristic, contradicting the claim that
a failing call falls back to the heuristic with `needsMultiStep = true`. -/
theorem analyzeQuery_fail_heuristic_counterexample :
    matchesAnyMarker multiTopicMarkers "Compare React vs Vue" = true ∧
    (analyzeQuery "Compare React vs Vue" GenOutcome.fail).needsMultiStep = false ∧
    (analyzeQuery "Compare React vs Vue" GenOutcome.fail).complexity =
      Complexity.simple := by
  refine ⟨by decide, rfl, rfl⟩

/-- C1 as amended: a throwing generation-service call is answered with the
static simple analysis for every query, while the deterministic heuristic
(comparison/sequential markers giving `needsMultiStep = true` and
complexity `moderate`, otherwise `false` and `simple`) applies exactly when
the call succeeds without a `{...}` JSON span in its response. -/
theorem analyzeQuery_fallback_behavior (query : String) :
    analyzeQuery query GenOutcome.fail =
      { needsMultiStep := false, complexity := Complexity.simple,
        suggestedSteps := [], reasoning := "Analysis failed, defaulting to simple" } ∧
    ((analyzeQuery query GenOutcome.okNoJson).needsMultiStep = true ↔
      ∃ m, (m ∈ multiTopicMarkers ∨ m ∈ sequentialMarkers) ∧
        m.toList <:+: (lowerStr query).toList) ∧
    (analyzeQuery query GenOutcome.okNoJson).complexity =
      (if (analyzeQuery query GenOutcome.okNoJson).needsMultiStep then
        Complexity.moderate
      else Complexity.simple) := by
  refine ⟨rfl, ?_, rfl⟩
  simp only [analyzeQuery, matchesAnyMarker, Bool.or_eq_true,
    List.any_eq_true, jsIncludes_iff]
  constructor
  · rintro (⟨m, hm, hi⟩ | ⟨m, hm, hi⟩)
    · exact ⟨m, Or.inl hm, hi⟩
    · exact ⟨m, Or.inr hm, hi⟩
  · rintro ⟨m, hm | hm, hi⟩
    · exact Or.inl ⟨m, hm, hi⟩
    · exact Or.inr ⟨m, hm, hi⟩

/-! ## C8: concrete invalid-citation check -/

/-- C8: `checkResponseQuality("See [5].", [S1, S2])` reports the
invalid-citation issue, scores at most 80 (concretely 45), and is not
valid. -/
theorem checkResponseQuality_invalid_citation_case :
    "Invalid citation numbers: [5] (only 2 sources available)" ∈
      (checkResponseQuality "See [5]." [sampleSource, sampleSource]).issues ∧
    (checkResponseQuality "See [5]." [sampleSource, sampleSource]).score ≤ 80 ∧
    (checkResponseQuality "See [5]." [sampleSource, sampleSource]).isValid = false := by
  refine ⟨by decide, by decide, by decide⟩

/-! ## C9: the score is always within [0, 100] -/

/-- C9: for every response text and source list the quality score lies in
`[0, 100]`: it starts at 100, each penalty only subtracts, and the final
value is clamped below at 0. -/
theorem checkResponseQuality_score_bounds (responseText : String)
    (sources : List SearchResult) :
    0 ≤ (checkResponseQuality responseText sources).score ∧
      (checkResponseQuality responseText sources).score ≤ 100 := by
  unfold checkResponseQuality
  dsimp only
  constructor
  · exact le_max_left 0 _
  · apply max_le (by norm_num)
    split_ifs <;> norm_num

/-! ## C6: relevance-score weights -/

/-- The keyword accumulation of `calculateRelevanceScore` as a closed
formula: +3 per qualifying title hit and +1 per qualifying snippet hit. -/
theorem relevance_fold_eq (title snippet : String) :
    ∀ (ws : List String) (acc : ℤ),
      ws.foldl (fun score word =>
        if word.length > 2 then
          let score1 := if jsIncludes title word then score + 3 else score
          if jsIncludes snippet word then score1 + 1 else score1
        else score) acc =
      acc + 3 * ((ws.filter (fun w =>
          decide (w.length > 2) && jsIncludes title w)).length : ℤ) +
        ((ws.filter (fun w =>
          decide (w.length > 2) && jsIncludes snippet w)).length : ℤ) := by
  intro ws
  induction ws with
  | nil => intro acc; simp
  | cons w ws ih =>
    intro acc
    rw [List.foldl_cons, ih, List.filter_cons, List.filter_cons]
    by_cases hlen : w.length > 2
    · by_cases hti : jsIncludes title w = true
      · by_cases hsn : jsIncludes snippet w = true
        · simp [hlen, hti, hsn]
          omega
        · simp [hlen, hti, hsn]
          omega
      · by_cases hsn : jsIncludes snippet w = true
        · simp [hlen, hti, hsn]
          omega
        · simp [hlen, hti, hsn]
    · simp [hlen]


/-- C6 counterexample: for the single significant query word "cats" found
in the title (and nowhere else, untrusted domain), the code's
`calculateRelevanceScore` yields 3 where the spec's formula (+2 per title
hit) yields 2. -/
theorem relevanceScore_title_weight_counterexample :
    calculateRelevanceScore relevanceSample "cats" = 3 ∧
    specRelevanceScore relevanceSample "cats" = 2 := by
  refine ⟨by decide, by decide⟩

/-- C6 as amended: `calculateRelevanceScore` adds +3 (not +2) for each
significant query word (length > 2) found in the title, +1 for each found
in the snippet, and a flat +2 for trusted domains. -/
theorem relevanceScore_formula (result : SearchResult) (query : String) :
    calculateRelevanceScore result query =
      3 * (((splitWs (lowerStr query)).filter (fun w =>
          decide (w.length > 2) && jsIncludes (lowerStr result.title) w)).length : ℤ) +
        (((splitWs (lowerStr query)).filter (fun w =>
          decide (w.length > 2) && jsIncludes (lowerStr result.snippet) w)).length : ℤ) +
        (if TRUSTED_DOMAINS.any (fun domain => jsIncludes result.domain domain) then 2
         else 0) := by
  unfold calculateRelevanceScore
  dsimp only
  rw [relevance_fold_eq (lowerStr result.title) (lowerStr result.snippet)
    (splitWs (lowerStr query)) 0]
  split_ifs <;> ring

/-! ## C7: evidence extraction -/

/-- C7 counterexample: for the query "is it a quantum computer" the code
matches sentences against all query words, so the first sentence (which
contains only the short words) is chosen, while the spec's
significant-words rule (length > 3) selects the second sentence. -/
theorem extractEvidence_sigwords_counterexample :
    extractEvidence evidenceSample "is it a quantum computer" =
      "It is a great day" ∧
    specExtractEvidence evidenceSample "is it a quantum computer" =
      "Quantum computer news" := by
  refine ⟨by decide, by decide⟩

/-- A `find?` scan returns the element at the first index whose predicate
holds. -/
theorem find?_eq_of_first {α : Type} (p : α → Bool) :
    ∀ (l : List α) (i : Nat) (hi : i < l.length), p (l.get ⟨i, hi⟩) = true →
      (∀ j, (hj : j < i) → p (l.get ⟨j, Nat.lt_trans hj hi⟩) = false) →
      l.find? p = some (l.get ⟨i, hi⟩) := by
  intro l
  induction l with
  | nil => intro i hi; simp at hi
  | cons a t ih =>
    intro i hi hp hmin
    cases i with
    | zero =>
      have ha : p a = true := by simpa using hp
      rw [List.find?_cons_of_pos _ ha]
      simp
    | succ n =>
      have ha : p a = false := by simpa using hmin 0 (Nat.succ_pos n)
      rw [List.find?_cons_of_neg _ (by simp [ha])]
      have hn : n < t.length := by simpa using hi
      have hp' : p (t.get ⟨n, hn⟩) = true := by simpa using hp
      have hmin' : ∀ j, (hj : j < n) →
          p (t.get ⟨j, Nat.lt_trans hj hn⟩) = false := by
        intro j hj
        simpa using hmin (j + 1) (by omega)
      rw [ih n hn hp' hmin']
      simp

/-- C7 as amended: `extractEvidence` returns the trimmed first sentence
containing at least half of all the query's whitespace-separated words (no
length filter), and falls back to the snippet's first 200 characters when
no sentence qualifies. -/
theorem extractEvidence_first_half_match (result : SearchResult) (query : String) :
    ((∀ s ∈ sentencesOf result.snippet,
        sentenceMatches (splitWs (lowerStr query)) s = false) →
      extractEvidence result query = takeChars 200 result.snippet) ∧
    (∀ i, (hi : i < (sentencesOf result.snippet).length) →
      sentenceMatches (splitWs (lowerStr query))
          ((sentencesOf result.snippet).get ⟨i, hi⟩) = true →
      (∀ j, (hj : j < i) →
        sentenceMatches (splitWs (lowerStr query))
          ((sentencesOf result.snippet).get ⟨j, Nat.lt_trans hj hi⟩) = false) →
      extractEvidence result query =
        jsTrim ((sentencesOf result.snippet).get ⟨i, hi⟩)) := by
  constructor
  · intro h
    show (match (sentencesOf result.snippet).find?
        (sentenceMatches (splitWs (lowerStr query))) with
      | some sentence => jsTrim sentence
      | none => takeChars 200 result.snippet) = takeChars 200 result.snippet
    rw [List.find?_eq_none.mpr (fun x hx => by simp [h x hx])]
  · intro i hi hp hmin
    show (match (sentencesOf result.snippet).find?
        (sentenceMatches (splitWs (lowerStr query))) with
      | some sentence => jsTrim sentence
      | none => takeChars 200 result.snippet) =
      jsTrim ((sentencesOf result.snippet).get ⟨i, hi⟩)
    rw [find?_eq_of_first _ _ i hi hp hmin]

/-- Witness for `extractEvidence_first_half_match` at the concrete sample:
its first sentence already passes the all-words threshold. -/
theorem extractEvidence_first_half_match_witness :
    sentenceMatches (splitWs (lowerStr "is it a quantum computer"))
        ((sentencesOf evidenceSample.snippet).get ⟨0, by decide⟩) = true ∧
    extractEvidence evidenceSample "is it a quantum computer" =
      jsTrim ((sentencesOf evidenceSample.snippet).get ⟨0, by decide⟩) :=
  ⟨by decide,
    (extractEvidence_first_half_match evidenceSample "is it a quantum computer").2
      0 (by decide) (by decide) (fun j hj => absurd hj (Nat.not_lt_zero j))⟩

/-! ## Lemmas about the descending stable sort of the re-ranker -/

/-- Membership through `insertDesc`. -/
theorem mem_insertDesc {x r : ScoredResult} {l : List ScoredResult} :
    x ∈ insertDesc r l ↔ x = r ∨ x ∈ l := by
  induction l with
  | nil => simp [insertDesc]
  | cons a t ih =>
    simp only [insertDesc]
    split_ifs with h
    · rw [List.mem_cons, ih]
      constructor
      · rintro (rfl | h2 | h3) <;> simp [*]
      · rintro (rfl | h2)
        · simp
        · rcases List.mem_cons.mp h2 with rfl | h3 <;> simp [*]
    · simp [List.mem_cons]

/-- Membership through `sortDesc`. -/
theorem mem_sortDesc {x : ScoredResult} {l : List ScoredResult} :
    x ∈ sortDesc l ↔ x ∈ l := by
  induction l with
  | nil => simp [sortDesc]
  | cons a t ih => simp [sortDesc, mem_insertDesc, ih]

/-- `insertDesc` preserves the descending order. -/
theorem insertDesc_pairwise (r : ScoredResult) (l : List ScoredResult)
    (h : l.Pairwise (fun a b => b.combinedScoreS ≤ a.combinedScoreS)) :
    (insertDesc r l).Pairwise (fun a b => b.combinedScoreS ≤ a.combinedScoreS) := by
  induction l with
  | nil => simp [insertDesc]
  | cons a t ih =>
    rcases List.pairwise_cons.mp h with ⟨ha, ht⟩
    simp only [insertDesc]
    split_ifs with hgt
    · refine List.pairwise_cons.mpr ⟨?_, ih ht⟩
      intro y hy
      rcases mem_insertDesc.mp hy with rfl | hy'
      · exact le_of_lt hgt
      · exact ha y hy'
    · refine List.pairwise_cons.mpr ⟨?_, h⟩
      intro y hy
      rcases List.mem_cons.mp hy with rfl | hy'
      · exact le_of_not_lt hgt
      · exact le_trans (ha y hy') (le_of_not_lt hgt)

/-- `sortDesc` sorts descending by the (scaled) combined score. -/
theorem sortDesc_pairwise (l : List ScoredResult) :
    (sortDesc l).Pairwise (fun a b => b.combinedScoreS ≤ a.combinedScoreS) := by
  induction l with
  | nil => simp [sortDesc]
  | cons a t ih => exact insertDesc_pairwise a (sortDesc t) ih

/-- `insertDesc` never moves an element past an equal score, so each tie
class gains the new element at its front exactly when the new element ties. -/
theorem insertDesc_filter (r : ScoredResult) (l : List ScoredResult) (k : ℤ) :
    (insertDesc r l).filter (fun s => decide (s.combinedScoreS = k)) =
      if r.combinedScoreS = k then
        r :: l.filter (fun s => decide (s.combinedScoreS = k))
      else l.filter (fun s => decide (s.combinedScoreS = k)) := by
  induction l with
  | nil =>
    simp [insertDesc, List.filter_cons]
  | cons a t ih =>
    simp only [insertDesc]
    by_cases hgt : a.combinedScoreS > r.combinedScoreS
    · rw [if_pos hgt, List.filter_cons, List.filter_cons, ih]
      simp only [decide_eq_true_eq]
      by_cases hak : a.combinedScoreS = k
      · have hrk : ¬ r.combinedScoreS = k := by
          intro hr
          rw [hak, hr] at hgt
          exact lt_irrefl k hgt
        rw [if_pos hak, if_neg hrk, if_neg hrk, if_pos hak]
      · by_cases hrk : r.combinedScoreS = k
        · rw [if_neg hak, if_pos hrk, if_pos hrk, if_neg hak]
        · rw [if_neg hak, if_neg hrk, if_neg hrk, if_neg hak]
    · rw [if_neg hgt]
      simp only [List.filter_cons, decide_eq_true_eq]

/-- Tie classes of the stable sort keep the original list order. -/
theorem sortDesc_filter (l : List ScoredResult) (k : ℤ) :
    (sortDesc l).filter (fun s => decide (s.combinedScoreS = k)) =
      l.filter (fun s => decide (s.combinedScoreS = k)) := by
  induction l with
  | nil => rfl
  | cons a t ih =>
    show (insertDesc a (sortDesc t)).filter (fun s => decide (s.combinedScoreS = k)) = _
    rw [insertDesc_filter, ih, List.filter_cons]
    simp only [decide_eq_true_eq]

/-! ## C4: the re-ranker caps at 7 and never returns blacklisted domains -/

/-- Every element of the re-ranker's output is the enrichment of a result
that survived `filterLowQualityResults`. -/
theorem mem_rerank (r : SearchResult) (results : List SearchResult) (query : String)
    (h : r ∈ rerankResults results query) :
    ∃ s, s ∈ filterLowQualityResults results query ∧
      r = (scoreResult query s).result := by
  unfold rerankResults at h
  rcases List.mem_map.mp h with ⟨sc, hsc, rfl⟩
  have h2 : sc ∈ sortDesc (scoredCandidates results query) :=
    List.mem_of_mem_take hsc
  have h3 : sc ∈ scoredCandidates results query := mem_sortDesc.mp h2
  unfold scoredCandidates at h3
  rcases List.mem_map.mp h3 with ⟨s, hs, rfl⟩
  exact ⟨s, hs, rfl⟩

/-- Each blacklisted domain is lowercase, so it occurs inside its own
lowercasing. -/
theorem jsIncludes_self_of_blacklist :
    ∀ d ∈ DOMAIN_BLACKLIST, jsIncludes (lowerStr d) d = true := by decide

/-- A result that passed the mock filter cannot carry a blacklisted
domain. -/
theorem isMockResult_false_not_blacklisted {s : SearchResult} {query : String}
    (h : isMockResult s query = false) : s.domain ∉ DOMAIN_BLACKLIST := by
  intro hmem
  have hany : DOMAIN_BLACKLIST.any
      (fun blacklisted => jsIncludes (lowerStr s.domain) blacklisted) = true :=
    List.any_eq_true.mpr
      ⟨s.domain, hmem, jsIncludes_self_of_blacklist s.domain hmem⟩
  simp only [isMockResult] at h
  rw [hany] at h
  simp at h

/-- A blacklisted domain is always flagged as a mock result. -/
theorem blacklisted_isMock {r : SearchResult} {query : String}
    (h : r.domain ∈ DOMAIN_BLACKLIST) : isMockResult r query = true := by
  have hany : DOMAIN_BLACKLIST.any
      (fun blacklisted => jsIncludes (lowerStr r.domain) blacklisted) = true :=
    List.any_eq_true.mpr ⟨r.domain, h, jsIncludes_self_of_blacklist r.domain h⟩
  simp only [isMockResult]
  rw [hany]
  simp

/-- C4: the re-ranker returns at most 7 results; none of them has a
blacklisted domain; and a sole blacklisted candidate yields an empty
output. -/
theorem rerank_cap_and_blacklist (results : List SearchResult) (query : String) :
    (rerankResults results query).length ≤ 7 ∧
    (∀ r, r ∈ rerankResults results query → r.domain ∉ DOMAIN_BLACKLIST) ∧
    (∀ r, r.domain ∈ DOMAIN_BLACKLIST → rerankResults [r] query = []) := by
  refine ⟨?_, ?_, ?_⟩
  · unfold rerankResults
    rw [List.length_map]
    exact List.length_take_le 7 _
  · intro r hr
    rcases mem_rerank r results query hr with ⟨s, hs, rfl⟩
    show s.domain ∉ DOMAIN_BLACKLIST
    have hpred := (List.mem_filter.mp hs).2
    simp only [Bool.and_eq_true, Bool.not_eq_true'] at hpred
    exact isMockResult_false_not_blacklisted hpred.1
  · intro r h
    unfold rerankResults scoredCandidates filterLowQualityResults
    simp [List.filter_cons, blacklisted_isMock h, sortDesc]

/-- Witness for `rerank_cap_and_blacklist`: a surviving sample keeps an
unblacklisted domain, and a blacklisted sole candidate is dropped. -/
theorem rerank_cap_and_blacklist_witness :
    0 < (rerankResults [sampleSource] "page").length ∧
    ((rerankResults [sampleSource] "page").get ⟨0, by decide⟩).domain ∉
      DOMAIN_BLACKLIST ∧
    blacklistedSample.domain ∈ DOMAIN_BLACKLIST ∧
    rerankResults [blacklistedSample] "page" = [] :=
  ⟨by decide,
    (rerank_cap_and_blacklist [sampleSource] "page").2.1 _
      (List.get_mem _ _ _),
    by decide,
    (rerank_cap_and_blacklist [sampleSource] "page").2.2 blacklistedSample
      (by decide)⟩

/-! ## C5: the re-ranker sorts by the IEEE double combined score -/

/-- The stored scaled score of an enriched candidate is the (scaled) IEEE
double combined score recomputed from the enriched result: enrichment
changes no field that the two component scores read. -/
theorem scoredCandidates_combined (results : List SearchResult) (query : String) :
    ∀ sc ∈ scoredCandidates results query,
      jsCombinedScore sc.result query = sc.combinedScoreS := by
  intro sc hsc
  unfold scoredCandidates at hsc
  rcases List.mem_map.mp hsc with ⟨s, _, rfl⟩
  rfl

/-- Counterexample to C5's tie clause: under the query `"cat dog fox"`,
`tieA` (quality 4, relevance 0) and `tieB` (quality 2, relevance 3) have
EQUAL exact combined scores (both `2.4`), but the program computes IEEE
doubles, `fl(4 * 0.6) = 2.4 < fl(fl(2 * 0.6) + fl(3 * 0.4)) =
2.4000000000000004`, so from the input order `[tieA, tieB]` the sort
returns `tieB` first: an exact-arithmetic tie is strictly reordered
rather than kept in the original order. -/
theorem rerank_exact_tie_reordered_counterexample :
    combinedScoreOf tieA "cat dog fox" = combinedScoreOf tieB "cat dog fox" ∧
    jsCombinedScore tieA "cat dog fox" < jsCombinedScore tieB "cat dog fox" ∧
    (rerankResults [tieA, tieB] "cat dog fox").map (fun r => r.id) =
      [tieB.id, tieA.id] := by
  refine ⟨?_, by decide, by decide⟩
  have hqA : calculateQualityScore tieA "cat dog fox" = 4 := by decide
  have hrA : calculateRelevanceScore tieA "cat dog fox" = 0 := by decide
  have hqB : calculateQualityScore tieB "cat dog fox" = 2 := by decide
  have hrB : calculateRelevanceScore tieB "cat dog fox" = 3 := by decide
  unfold combinedScoreOf
  rw [hqA, hrA, hqB, hrB]
  norm_num

/-- C5 (amended): any earlier element of the re-ranker output has an IEEE
double combined score (recomputed from the result) at least that of any
later element; the sort keeps each class of double-equal scores in the
original candidate order; and every returned result has a non-negative
quality score (negative ones were dropped before ranking). -/
theorem rerank_sorted_stable_nonneg (results : List SearchResult) (query : String) :
    (∀ i j, (hij : i < j) → (hj : j < (rerankResults results query).length) →
      jsCombinedScore ((rerankResults results query).get ⟨j, hj⟩) query ≤
        jsCombinedScore
          ((rerankResults results query).get ⟨i, Nat.lt_trans hij hj⟩) query) ∧
    (∀ k : ℤ, (sortDesc (scoredCandidates results query)).filter
        (fun s => decide (s.combinedScoreS = k)) =
      (scoredCandidates results query).filter
        (fun s => decide (s.combinedScoreS = k))) ∧
    (∀ r, r ∈ rerankResults results query → 0 ≤ calculateQualityScore r query) := by
  refine ⟨?_, sortDesc_filter _, ?_⟩
  · have hsort := sortDesc_pairwise (scoredCandidates results query)
    have htake : ((sortDesc (scoredCandidates results query)).take 7).Pairwise
        (fun a b => b.combinedScoreS ≤ a.combinedScoreS) :=
      hsort.sublist (List.take_sublist 7 _)
    have hmap : (rerankResults results query).Pairwise
        (fun a b => jsCombinedScore b query ≤ jsCombinedScore a query) := by
      unfold rerankResults
      rw [List.pairwise_map]
      refine List.Pairwise.imp_of_mem ?_ htake
      intro a b ha hb hle
      have ha' : a ∈ scoredCandidates results query :=
        mem_sortDesc.mp (List.mem_of_mem_take ha)
      have hb' : b ∈ scoredCandidates results query :=
        mem_sortDesc.mp (List.mem_of_mem_take hb)
      rw [scoredCandidates_combined results query a ha',
        scoredCandidates_combined results query b hb']
      exact hle
    intro i j hij hj
    exact List.pairwise_iff_get.mp hmap ⟨i, Nat.lt_trans hij hj⟩ ⟨j, hj⟩ hij
  · intro r hr
    rcases mem_rerank r results query hr with ⟨s, hs, rfl⟩
    have hpred := (List.mem_filter.mp hs).2
    simp only [Bool.and_eq_true, decide_eq_true_eq] at hpred
    have hq : calculateQualityScore ((scoreResult query s).result) query =
        calculateQualityScore s query := rfl
    rw [hq]
    exact hpred.2

/-- Witness for `rerank_sorted_stable_nonneg`: the tie pair survives the
filter, and at indices 0 and 1 of the output the stated order and
quality-sign facts hold. -/
theorem rerank_sorted_stable_nonneg_witness :
    (0 < 1 ∧ 1 < (rerankResults [tieA, tieB] "cat dog fox").length) ∧
    jsCombinedScore
        ((rerankResults [tieA, tieB] "cat dog fox").get
          ⟨1, by decide⟩) "cat dog fox" ≤
      jsCombinedScore
        ((rerankResults [tieA, tieB] "cat dog fox").get
          ⟨0, by decide⟩) "cat dog fox" ∧
    0 ≤ calculateQualityScore
        ((rerankResults [tieA, tieB] "cat dog fox").get
          ⟨0, by decide⟩) "cat dog fox" :=
  ⟨⟨by decide, by decide⟩,
    (rerank_sorted_stable_nonneg [tieA, tieB] "cat dog fox").1
      0 1 (by decide) (by decide),
    (rerank_sorted_stable_nonneg [tieA, tieB] "cat dog fox").2.2 _
      (List.get_mem _ _ _)⟩

/-! ## Lemmas about the multi-hop execution loop -/

/-- A list guarded by its own length is itself. -/
theorem ite_length_pos {α : Type} (l : List α) :
    (if l.length > 0 then l else []) = l := by
  cases l <;> simp

/-- A list with positive length is not `isEmpty`. -/
theorem isEmpty_eq_false_of_pos {α : Type} {l : List α} (h : 0 < l.length) :
    l.isEmpty = false := by
  cases l
  · simp at h
  · rfl

/-- The loop preserves "the aggregate is the concatenation of the emitted
events' results". -/
theorem runTasks_inv (oracle : String → Except String SearchResponse)
    (total : Nat) :
    ∀ (tasks : List PlanTask) (i : Nat) (st : HopState),
      st.allResults = st.events.flatMap (fun e => e.results) →
      (runTasks oracle total i st tasks).allResults =
        (runTasks oracle total i st tasks).events.flatMap (fun e => e.results) := by
  intro tasks
  induction tasks with
  | nil => intro i st h; exact h
  | cons task rest ih =>
    intro i st h
    apply ih
    show st.allResults ++ _ = (st.events ++ _).flatMap (fun e => e.results)
    rw [List.flatMap_append, h]
    simp

/-- One progress event is emitted per executed task. -/
theorem runTasks_events_length (oracle : String → Except String SearchResponse)
    (total : Nat) :
    ∀ (tasks : List PlanTask) (i : Nat) (st : HopState),
      (runTasks oracle total i st tasks).events.length =
        st.events.length + tasks.length := by
  intro tasks
  induction tasks with
  | nil => intro i st; simp [runTasks]
  | cons task rest ih =>
    intro i st
    show (runTasks oracle total (i + 1) (runTask oracle total i st task) rest).events.length = _
    rw [ih]
    show (st.events ++ _).length + rest.length = _
    simp
    omega

/-- One executed task is recorded per planned task. -/
theorem runTasks_plan_length (oracle : String → Except String SearchResponse)
    (total : Nat) :
    ∀ (tasks : List PlanTask) (i : Nat) (st : HopState),
      (runTasks oracle total i st tasks).executedTasks.length =
        st.executedTasks.length + tasks.length := by
  intro tasks
  induction tasks with
  | nil => intro i st; simp [runTasks]
  | cons task rest ih =>
    intro i st
    show (runTasks oracle total (i + 1) (runTask oracle total i st task) rest).executedTasks.length = _
    rw [ih]
    show (st.executedTasks ++ _).length + rest.length = _
    simp
    omega

/-- Every emitted event either predates the loop or records exactly the
adopted search results of one of the tasks. -/
theorem runTasks_events_results (oracle : String → Except String SearchResponse)
    (total : Nat) :
    ∀ (tasks : List PlanTask) (i : Nat) (st : HopState) (e : StepEvent),
      e ∈ (runTasks oracle total i st tasks).events →
      e ∈ st.events ∨
        ∃ task, task ∈ tasks ∧ e.results = (taskSearchOutcome oracle task).1 := by
  intro tasks
  induction tasks with
  | nil => intro i st e he; exact Or.inl he
  | cons task rest ih =>
    intro i st e he
    rcases ih (i + 1) (runTask oracle total i st task) e he with h | ⟨t, ht, hr⟩
    · rcases List.mem_append.mp h with h' | h'
      · exact Or.inl h'
      · refine Or.inr ⟨task, List.mem_cons_self task rest, ?_⟩
        rw [ List.mem_singleton.mp h']
    · exact Or.inr ⟨t, List.mem_cons_of_mem _ ht, hr⟩

/-- A plan is never empty (spec-modelled `planTasks`). -/
theorem planTasks_length_pos (query : String) (suggestedSteps : List String) :
    1 ≤ (planTasks query suggestedSteps).length := by
  unfold planTasks
  split_ifs with h
  · simp
  · cases suggestedSteps with
    | nil => simp at h
    | cons a t => simp

/-- The complex path of `executeMultiHopSearch`, unfolded. -/
theorem executeMultiHop_complex (oracle : String → Except String SearchResponse)
    (query complexity : String) (suggestedSteps : List String) :
    executeMultiHopSearch oracle query true complexity suggestedSteps =
      (let tasks := planTasks query suggestedSteps
       let final := runTasks oracle tasks.length 0 initHopState tasks
       ({ finalResults :=
            if final.allResults.length > 0 then lastN 10 final.allResults else []
          allResults := if final.allResults.length > 0 then final.allResults else []
          executionPlan := final.executedTasks
          analysisNeedsMultiStep := true
          analysisComplexity := complexity
          hasMockSearch := final.hasMockSearch }, final.events)) := rfl

/-! ## C3: aggregation invariants of the multi-hop engine -/

/-- C3: on the complex path, `allResults` is the in-order concatenation of
the per-task results (so its length is the sum of the per-task counts),
`finalResults` is the last-10 slice of `allResults` (hence at most 10
long, and empty when there is nothing), and the execution plan has at
least one entry. -/
theorem multiHop_aggregation_invariants
    (oracle : String → Except String SearchResponse)
    (query complexity : String) (suggestedSteps : List String) :
    let out := executeMultiHopSearch oracle query true complexity suggestedSteps
    out.1.allResults = out.2.flatMap (fun e => e.results) ∧
    out.1.allResults.length = (out.2.map (fun e => e.results.length)).sum ∧
    out.1.finalResults = lastN 10 out.1.allResults ∧
    out.1.finalResults.length ≤ 10 ∧
    1 ≤ out.1.executionPlan.length := by
  intro out
  have hinv := runTasks_inv oracle (planTasks query suggestedSteps).length
    (planTasks query suggestedSteps) 0 initHopState rfl
  have h1 : out.1.allResults = out.2.flatMap (fun e => e.results) := by
    show (if _ > 0 then _ else []) = _
    rw [ite_length_pos]
    exact hinv
  refine ⟨h1, ?_, ?_, ?_, ?_⟩
  · rw [h1]
    simp [List.length_flatMap, Function.comp_def]
  · show (if _ > 0 then lastN 10 _ else []) = lastN 10 (if _ > 0 then _ else [])
    rw [ite_length_pos]
    cases hres : (runTasks oracle (planTasks query suggestedSteps).length
        0 initHopState (planTasks query suggestedSteps)).allResults with
    | nil => simp [lastN]
    | cons a t => simp
  · show (if _ > 0 then lastN 10 _ else []).length ≤ 10
    split_ifs
    · unfold lastN
      rw [List.length_drop]
      omega
    · simp
  · show 1 ≤ (runTasks oracle (planTasks query suggestedSteps).length
        0 initHopState (planTasks query suggestedSteps)).executedTasks.length
    rw [runTasks_plan_length]
    have := planTasks_length_pos query suggestedSteps
    omega

/-! ## C2: per-hop provider failure on the complex path -/

/-- C2 counterexample: with the backend provider failing on every query,
the single task of the plan is recorded with the three mock fallback
results — not with zero results, as the claim states. The plan still
completes and returns a `MultiHopResult`. -/
theorem multiHop_failed_call_records_mock_counterexample :
    ((executeMultiHopSearch (fun _ => Except.error "network failure")
        "find cats" true "moderate" ["find cats"]).2.map
      (fun e => e.results.length)) = [3] ∧
    (executeMultiHopSearch (fun _ => Except.error "network failure")
        "find cats" true "moderate" ["find cats"]).1.allResults.length = 3 := by
  refine ⟨by decide, by decide⟩

/-- `webSearch` on a failing backend call returns the mock fallback. -/
theorem webSearch_error (msg : String) (oracle : String → Except String SearchResponse)
    (q : String) (h : oracle q = Except.error msg) :
    webSearch oracle q = mockSearch q := by
  unfold webSearch
  rw [h]

/-- `mockSearch` always produces at least one (in fact at least three)
results. -/
theorem mockSearch_results_pos (q : String) : 0 < (mockSearch q).results.length := by
  unfold mockSearch
  dsimp only
  split_ifs <;> simp

/-- With a failing provider, a task adopts exactly the mock fallback
results for its bounded query (the retry is not triggered, because the
fallback is non-empty). -/
theorem taskSearchOutcome_error (msg : String → String) (task : PlanTask) :
    (taskSearchOutcome (fun q => Except.error (msg q)) task).1 =
      (mockSearch (boundQuery task.searchQuery)).results := by
  have hws : webSearch (fun q => Except.error (msg q)) (boundQuery task.searchQuery) =
      mockSearch (boundQuery task.searchQuery) := rfl
  simp only [taskSearchOutcome]
  rw [hws, isEmpty_eq_false_of_pos (mockSearch_results_pos (boundQuery task.searchQuery))]
  simp

/-- C2 as amended: a failing provider call never aborts the plan, because
`webSearch` recovers internally and substitutes the (non-empty) mock
fallback results. With the backend failing for every query, the engine
still emits one progress event per planned task, every task records a
non-empty result list (the mock fallback, not zero results), and the
returned `MultiHopResult` aggregates exactly those per-task results. -/
theorem multiHop_failed_calls_continue (failMsg : String → String)
    (query complexity : String) (suggestedSteps : List String) :
    (executeMultiHopSearch (fun q => Except.error (failMsg q))
        query true complexity suggestedSteps).2.length =
      (planTasks query suggestedSteps).length ∧
    (∀ e ∈ (executeMultiHopSearch (fun q => Except.error (failMsg q))
        query true complexity suggestedSteps).2, 0 < e.results.length) ∧
    (executeMultiHopSearch (fun q => Except.error (failMsg q))
        query true complexity suggestedSteps).1.allResults =
      (executeMultiHopSearch (fun q => Except.error (failMsg q))
        query true complexity suggestedSteps).2.flatMap (fun e => e.results) := by
  refine ⟨?_, ?_, ?_⟩
  · show (runTasks _ _ 0 initHopState _).events.length = _
    rw [runTasks_events_length]
    simp [initHopState]
  · intro e he
    rcases runTasks_events_results (fun q => Except.error (failMsg q))
      (planTasks query suggestedSteps).length (planTasks query suggestedSteps)
      0 initHopState e he with h | ⟨task, _, hr⟩
    · simp [initHopState] at h
    · rw [hr, taskSearchOutcome_error]
      exact mockSearch_results_pos _
  · have hinv := runTasks_inv (fun q => Except.error (failMsg q))
      (planTasks query suggestedSteps).length
      (planTasks query suggestedSteps) 0 initHopState rfl
    show (if _ > 0 then _ else []) = _
    rw [ite_length_pos]
    exact hinv

/-- Witness for `multiHop_failed_calls_continue` at a concrete all-failing
run with one suggested step. -/
theorem multiHop_failed_calls_continue_witness :
    ((executeMultiHopSearch (fun _ => Except.error "down") "find cats" true
        "moderate" ["find cats"]).2.get ⟨0, by decide⟩ ∈
      (executeMultiHopSearch (fun _ => Except.error "down") "find cats" true
        "moderate" ["find cats"]).2) ∧
    0 < ((executeMultiHopSearch (fun _ => Except.error "down") "find cats" true
        "moderate" ["find cats"]).2.get ⟨0, by decide⟩).results.length :=
  ⟨List.get_mem _ _ _,
    (multiHop_failed_calls_continue (fun _ => "down") "find cats" "moderate"
      ["find cats"]).2.1 _ (List.get_mem _ _ _)⟩

/-! ## C10: percentages depend only on the set of distinct markers -/

/-- Extending an infix by one leading character. -/
theorem infix_cons_of_infix {l t : List Char} (c : Char) (h : l <:+: t) :
    l <:+: c :: t := by
  rcases h with ⟨s, u, h⟩
  exact ⟨c :: s, u, by rw [← h]; simp⟩

/-- A digit run followed by a closing bracket starts a list exactly when
the list's leading digit run is that run and a bracket follows it. -/
theorem bracket_after_digits : ∀ (ds rest : List Char),
    (∀ c ∈ ds, c.isDigit = true) →
    (ds ++ [']'] <+: rest ↔
      rest.takeWhile Char.isDigit = ds ∧
        ∃ t, rest.dropWhile Char.isDigit = ']' :: t) := by
  intro ds
  induction ds with
  | nil =>
    intro rest _
    constructor
    · rintro ⟨t, ht⟩
      have hr : rest = ']' :: t := by simpa using ht.symm
      subst hr
      have hd : (']' : Char).isDigit = false := rfl
      constructor
      · rw [List.takeWhile_cons, if_neg (by simp [hd])]
      · exact ⟨t, by rw [List.dropWhile_cons, if_neg (by simp [hd])]⟩
    · rintro ⟨htake, t, hdropw⟩
      refine ⟨t, ?_⟩
      conv_rhs => rw [← List.takeWhile_append_dropWhile Char.isDigit rest]
      rw [htake, hdropw]
      simp
  | cons d ds ih =>
    intro rest hd
    have hdd : d.isDigit = true := hd d (List.mem_cons_self d ds)
    have hds : ∀ c ∈ ds, c.isDigit = true := fun c hc =>
      hd c (List.mem_cons_of_mem d hc)
    cases rest with
    | nil =>
      constructor
      · rintro ⟨t, ht⟩
        simp at ht
      · rintro ⟨htake, t, hdropw⟩
        simp at hdropw
    | cons e rest' =>
      constructor
      · intro h
        have h' : d :: (ds ++ [']']) <+: e :: rest' := by simpa using h
        rw [ List.cons_prefix_cons] at h'
        obtain ⟨rfl, h2⟩ := h'
        rcases (ih rest' hds).mp h2 with ⟨htake, t, hdropw⟩
        constructor
        · rw [List.takeWhile_cons, if_pos hdd, htake]
        · exact ⟨t, by rw [List.dropWhile_cons, if_pos hdd, hdropw]⟩
      · rintro ⟨htake, t, hdropw⟩
        by_cases he : e.isDigit = true
        · rw [List.takeWhile_cons, if_pos he] at htake
          injection htake with h1 h2
          rw [List.dropWhile_cons, if_pos he] at hdropw
          have h3 := (ih rest' hds).mpr ⟨h2, t, hdropw⟩
          subst h1
          show (e :: ds) ++ [']'] <+: e :: rest'
          rw [show ((e :: ds) ++ [']'] : List Char) = e :: (ds ++ [']']) from rfl]
          exact List.cons_prefix_cons.mpr ⟨rfl, h3⟩
        · rw [List.takeWhile_cons, if_neg he] at htake
          simp at htake

/-- Scan step at a non-bracket character. -/
theorem scanCitations_cons_not_bracket {c : Char} (rest : List Char)
    (hc : ¬ c = '[') : scanCitations (c :: rest) = scanCitations rest := by
  simp [scanCitations, hc]

/-- Scan step at an opening bracket. -/
theorem scanCitations_bracket (rest : List Char) :
    scanCitations ('[' :: rest) =
      (match rest.dropWhile Char.isDigit with
      | ']' :: _ =>
        if (rest.takeWhile Char.isDigit).isEmpty then scanCitations rest
        else natOfDigits (rest.takeWhile Char.isDigit) :: scanCitations rest
      | _ => scanCitations rest) := by
  simp [scanCitations]

/-- The numbers collected by the citation scan are exactly the values of
the bracketed digit runs occurring in the text. -/
theorem mem_scanCitations : ∀ (l : List Char) (n : Nat),
    n ∈ scanCitations l ↔
      ∃ ds : List Char, ds ≠ [] ∧ (∀ c ∈ ds, c.isDigit = true) ∧
        natOfDigits ds = n ∧ citationMarker ds <:+: l := by
  intro l
  induction l with
  | nil =>
    intro n
    constructor
    · intro h
      simp [scanCitations] at h
    · rintro ⟨ds, hne, -, -, s, t, h⟩
      have hlen := congrArg List.length h
      simp [citationMarker] at hlen
  | cons c rest ih =>
    intro n
    by_cases hc : c = '['
    case neg =>
      rw [scanCitations_cons_not_bracket rest hc, ih n]
      constructor
      · rintro ⟨ds, hne, hdig, hnat, hinf⟩
        exact ⟨ds, hne, hdig, hnat, infix_cons_of_infix c hinf⟩
      · rintro ⟨ds, hne, hdig, hnat, hinf⟩
        rcases List.infix_cons_iff.mp hinf with hpre | hinf'
        · exfalso
          rcases hpre with ⟨u, hu⟩
          simp only [citationMarker, List.cons_append] at hu
          injection hu with h1 _
          exact hc h1.symm
        · exact ⟨ds, hne, hdig, hnat, hinf'⟩
    case pos =>
      subst hc
      rw [scanCitations_bracket rest]
      have hmarker_pre : ∀ ds : List Char, citationMarker ds <+: '[' :: rest →
          ds ++ [']'] <+: rest := by
        intro ds hpre
        rcases hpre with ⟨u, hu⟩
        simp only [citationMarker, List.cons_append] at hu
        injection hu with _ h2
        exact ⟨u, h2⟩
      cases hdrop : rest.dropWhile Char.isDigit with
      | nil =>
        rw [ih n]
        constructor
        · rintro ⟨ds, hne, hdig, hnat, hinf⟩
          exact ⟨ds, hne, hdig, hnat, infix_cons_of_infix '[' hinf⟩
        · rintro ⟨ds, hne, hdig, hnat, hinf⟩
          rcases List.infix_cons_iff.mp hinf with hpre | hinf'
          · exfalso
            rcases (bracket_after_digits ds rest hdig).mp
              (hmarker_pre ds hpre) with ⟨-, t', hdrop'⟩
            rw [hdrop] at hdrop'
            exact List.noConfusion hdrop'
          · exact ⟨ds, hne, hdig, hnat, hinf'⟩
      | cons c0 tail0 =>
        by_cases hc0 : c0 = ']'
        case neg =>
          rw [show (match (c0 :: tail0 : List Char) with
              | ']' :: _ =>
                if (rest.takeWhile Char.isDigit).isEmpty then scanCitations rest
                else natOfDigits (rest.takeWhile Char.isDigit) :: scanCitations rest
              | _ => scanCitations rest) = scanCitations rest from by
            cases c0; simp_all [scanCitations]]
          rw [ih n]
          constructor
          · rintro ⟨ds, hne, hdig, hnat, hinf⟩
            exact ⟨ds, hne, hdig, hnat, infix_cons_of_infix '[' hinf⟩
          · rintro ⟨ds, hne, hdig, hnat, hinf⟩
            rcases List.infix_cons_iff.mp hinf with hpre | hinf'
            · exfalso
              rcases (bracket_after_digits ds rest hdig).mp
                (hmarker_pre ds hpre) with ⟨-, t', hdrop'⟩
              rw [hdrop] at hdrop'
              injection hdrop' with h1 _
              exact hc0 h1
            · exact ⟨ds, hne, hdig, hnat, hinf'⟩
        case pos =>
          subst hc0
          by_cases hemp : (rest.takeWhile Char.isDigit).isEmpty = true
          · rw [if_pos hemp]
            show n ∈ scanCitations rest ↔ _
            rw [ih n]
            constructor
            · rintro ⟨ds, hne, hdig, hnat, hinf⟩
              exact ⟨ds, hne, hdig, hnat, infix_cons_of_infix '[' hinf⟩
            · rintro ⟨ds, hne, hdig, hnat, hinf⟩
              rcases List.infix_cons_iff.mp hinf with hpre | hinf'
              · exfalso
                rcases (bracket_after_digits ds rest hdig).mp
                  (hmarker_pre ds hpre) with ⟨htake, t', -⟩
                rw [htake] at hemp
                rcases ds with - | ⟨d0, ds'⟩
                · exact hne rfl
                · exact Bool.noConfusion hemp
              · exact ⟨ds, hne, hdig, hnat, hinf'⟩
          · rw [if_neg hemp]
            show n ∈ natOfDigits (rest.takeWhile Char.isDigit) ::
              scanCitations rest ↔ _
            rw [List.mem_cons, ih n]
            constructor
            · rintro (rfl | ⟨ds, hne, hdig, hnat, hinf⟩)
              · refine ⟨rest.takeWhile Char.isDigit, ?_, ?_, rfl, ?_⟩
                · intro he
                  exact hemp (by rw [he]; rfl)
                · intro ch hch
                  exact List.mem_takeWhile_imp hch
                · refine ⟨[], tail0, ?_⟩
                  simp only [citationMarker, List.nil_append, List.cons_append]
                  conv_rhs =>
                    rw [← List.takeWhile_append_dropWhile Char.isDigit rest, hdrop]
                  simp
              · exact ⟨ds, hne, hdig, hnat, infix_cons_of_infix '[' hinf⟩
            · rintro ⟨ds, hne, hdig, hnat, hinf⟩
              rcases List.infix_cons_iff.mp hinf with hpre | hinf'
              · left
                rcases (bracket_after_digits ds rest hdig).mp
                  (hmarker_pre ds hpre) with ⟨htake, t', -⟩
                rw [htake]
                exact hnat.symm
              · right
                exact ⟨ds, hne, hdig, hnat, hinf'⟩

/-- Membership through the first-occurrence deduplication fold. -/
theorem mem_foldl_dedup (l : List Nat) : ∀ (acc : List Nat) (x : Nat),
    (x ∈ l.foldl (fun acc n => if n ∈ acc then acc else acc ++ [n]) acc) ↔
      x ∈ acc ∨ x ∈ l := by
  induction l with
  | nil => intro acc x; simp
  | cons a t ih =>
    intro acc x
    rw [List.foldl_cons, ih]
    by_cases ha : a ∈ acc
    · rw [if_pos ha]
      constructor
      · rintro (h | h)
        · exact Or.inl h
        · exact Or.inr (List.mem_cons_of_mem a h)
      · rintro (h | h)
        · exact Or.inl h
        · rcases List.mem_cons.mp h with rfl | h'
          · exact Or.inl ha
          · exact Or.inr h'
    · rw [if_neg ha]
      constructor
      · rintro (h | h)
        · rcases List.mem_append.mp h with h' | h'
          · exact Or.inl h'
          · rcases List.mem_singleton.mp h' with rfl
            exact Or.inr (List.mem_cons_self _ _)
        · exact Or.inr (List.mem_cons_of_mem a h)
      · rintro (h | h)
        · exact Or.inl (List.mem_append.mpr (Or.inl h))
        · rcases List.mem_cons.mp h with rfl | h'
          · exact Or.inl (List.mem_append.mpr (Or.inr (List.mem_singleton.mpr rfl)))
          · exact Or.inr h'

/-- `dedupKeepFirst` keeps exactly the members. -/
theorem mem_dedupKeepFirst {x : Nat} {l : List Nat} :
    x ∈ dedupKeepFirst l ↔ x ∈ l := by
  unfold dedupKeepFirst
  rw [mem_foldl_dedup]
  simp

/-- The deduplication fold preserves duplicate-freeness of the
accumulator. -/
theorem nodup_foldl_dedup (l : List Nat) : ∀ acc : List Nat, acc.Nodup →
    (l.foldl (fun acc n => if n ∈ acc then acc else acc ++ [n]) acc).Nodup := by
  induction l with
  | nil => intro acc h; exact h
  | cons a t ih =>
    intro acc h
    rw [List.foldl_cons]
    by_cases ha : a ∈ acc
    · rw [if_pos ha]
      exact ih acc h
    · rw [if_neg ha]
      apply ih
      rw [List.nodup_append]
      refine ⟨h, List.nodup_singleton a, ?_⟩
      intro x hx hxa
      rcases List.mem_singleton.mp hxa with rfl
      exact ha hx

/-- `dedupKeepFirst` is duplicate-free. -/
theorem nodup_dedupKeepFirst (l : List Nat) : (dedupKeepFirst l).Nodup :=
  nodup_foldl_dedup l [] List.nodup_nil

/-- `insertAsc` permutes consing. -/
theorem insertAsc_perm (n : Nat) (l : List Nat) :
    List.Perm (insertAsc n l) (n :: l) := by
  induction l with
  | nil => exact List.Perm.refl _
  | cons a t ih =>
    simp only [insertAsc]
    split_ifs with h
    · exact List.Perm.refl _
    · exact (List.Perm.cons a ih).trans (List.Perm.swap n a t)

/-- `sortAsc` is a permutation. -/
theorem sortAsc_perm (l : List Nat) : List.Perm (sortAsc l) l := by
  induction l with
  | nil => exact List.Perm.refl _
  | cons a t ih => exact (insertAsc_perm a (sortAsc t)).trans (List.Perm.cons a ih)

/-- `insertAsc` preserves ascending order. -/
theorem insertAsc_pairwise (n : Nat) (l : List Nat)
    (h : l.Pairwise (fun a b => a ≤ b)) :
    (insertAsc n l).Pairwise (fun a b => a ≤ b) := by
  induction l with
  | nil => simp [insertAsc]
  | cons a t ih =>
    rcases List.pairwise_cons.mp h with ⟨ha, ht⟩
    simp only [insertAsc]
    split_ifs with hle
    · refine List.pairwise_cons.mpr ⟨?_, h⟩
      intro y hy
      rcases List.mem_cons.mp hy with rfl | hy'
      · exact hle
      · exact le_trans hle (ha y hy')
    · refine List.pairwise_cons.mpr ⟨?_, ih ht⟩
      intro y hy
      have := (insertAsc_perm n t).mem_iff.mp hy
      rcases List.mem_cons.mp this with rfl | hy'
      · exact le_of_not_le hle
      · exact ha y hy'

/-- `sortAsc` sorts ascending. -/
theorem sortAsc_pairwise (l : List Nat) :
    (sortAsc l).Pairwise (fun a b => a ≤ b) := by
  induction l with
  | nil => simp [sortAsc]
  | cons a t ih => exact insertAsc_pairwise a (sortAsc t) ih

/-- Texts whose scans agree on membership have equal extracted citation
lists: deduplication and ascending sorting canonicalize the scan. -/
theorem extractCitations_ext {t1 t2 : String}
    (h : ∀ n, n ∈ scanCitations t1.toList ↔ n ∈ scanCitations t2.toList) :
    extractCitations t1 = extractCitations t2 := by
  unfold extractCitations
  have hd : ∀ n, n ∈ dedupKeepFirst (scanCitations t1.toList) ↔
      n ∈ dedupKeepFirst (scanCitations t2.toList) := fun n => by
    rw [mem_dedupKeepFirst, mem_dedupKeepFirst]
    exact h n
  have hperm : List.Perm (dedupKeepFirst (scanCitations t1.toList))
      (dedupKeepFirst (scanCitations t2.toList)) :=
    (List.perm_ext_iff_of_nodup (nodup_dedupKeepFirst _)
      (nodup_dedupKeepFirst _)).mpr hd
  exact List.eq_of_perm_of_sorted
    ((sortAsc_perm _).trans (hperm.trans (sortAsc_perm _).symm))
    (sortAsc_pairwise _) (sortAsc_pairwise _)

/-- C10: `citationCoverage` and `citationValidity` depend only on the set
of distinct `[n]` markers occurring in the response text and on the number
of sources: two texts carrying the same marker set, checked against source
lists of equal length, receive identical percentages — so repeated
occurrences of the same marker change neither. -/
theorem citation_percentages_marker_set (t1 t2 : String)
    (s1 s2 : List SearchResult)
    (hm : ∀ n, HasCitationMarker t1 n ↔ HasCitationMarker t2 n)
    (hs : s1.length = s2.length) :
    (checkResponseQuality t1 s1).citationCoverage =
      (checkResponseQuality t2 s2).citationCoverage ∧
    (checkResponseQuality t1 s1).citationValidity =
      (checkResponseQuality t2 s2).citationValidity := by
  have hext : extractCitations t1 = extractCitations t2 :=
    extractCitations_ext (fun n => by
      rw [mem_scanCitations, mem_scanCitations]
      exact hm n)
  constructor
  · show calculateCitationCoverage (extractCitations t1) s1.length =
      calculateCitationCoverage (extractCitations t2) s2.length
    rw [hext, hs]
  · show (if (extractCitations t1).length > 0 then
        ((roundPct (validateCitations (extractCitations t1) s1.length).1.length
          (extractCitations t1).length : Nat) : ℤ)
      else 0) =
      (if (extractCitations t2).length > 0 then
        ((roundPct (validateCitations (extractCitations t2) s2.length).1.length
          (extractCitations t2).length : Nat) : ℤ)
      else 0)
    rw [hext, hs]

/-- Witness for `citation_percentages_marker_set`: the texts `"[1][1]"`
and `"[1]"` carry the same marker set, so their coverage agrees. -/
theorem citation_percentages_marker_set_witness :
    (∀ n, HasCitationMarker "[1][1]" n ↔ HasCitationMarker "[1]" n) ∧
    (checkResponseQuality "[1][1]" [sampleSource]).citationCoverage =
      (checkResponseQuality "[1]" [sampleSource]).citationCoverage := by
  have hiff : ∀ (t : String) (m : Nat),
      HasCitationMarker t m ↔ m ∈ scanCitations t.toList := fun t m =>
    (mem_scanCitations t.toList m).symm
  have e1 : scanCitations "[1][1]".toList = [1, 1] := by decide
  have e2 : scanCitations "[1]".toList = [1] := by decide
  have h : ∀ n, HasCitationMarker "[1][1]" n ↔ HasCitationMarker "[1]" n := by
    intro n
    rw [hiff, hiff, e1, e2]
    simp
  exact ⟨h, (citation_percentages_marker_set "[1][1]" "[1]" [sampleSource]
    [sampleSource] h rfl).1⟩
